import Mathlib

/-!
Verification development for the cc-wf-studio workflow refinement engine.

Shallow embedding of the refinement orchestration core:
- the process supervisor (claude-code-service.ts: executeClaudeCodeCLI,
  parseClaudeCodeOutput, cancelRefinement),
- the refinement coordinator (refinement-service: isClarificationMessage,
  extractClarificationMessage, refineWorkflow, resolveSkillPaths),
- the command handlers (workflow-refinement handlers: handleRefineWorkflow,
  handleCancelRefinement),
- the webview conversation store (refinement-store: initConversation,
  clearHistory).

Text is modelled as Lean String values; character-level algorithms run on
List Char.  The JavaScript built-in JSON.parse is modelled by an executable
recursive-descent JSON reader over an exact decimal number representation.
Asynchronous effects (process spawning, webview postMessage) are modelled by
explicit state passing: the supervisor's process table is a list keyed by
request id, and each handler returns the list of messages it posts.
-/

namespace CcWfStudio

/-! ## Character and string helpers (JavaScript semantics) -/

/-- Whitespace as recognised by JavaScript String.prototype.trim and the
regex class backslash-s, restricted to the ASCII range used by the sources. -/
def isWsChar (c : Char) : Bool :=
  c = ' ' || c = '\t' || c = '\n' || c = '\r' || c = '\x0b' || c = '\x0c'

/-- The backtick character (avoids a raw backtick literal in code). -/
def backtick : Char := Char.ofNat 96

/-- Drop leading whitespace. -/
def dropLeadingWs (cs : List Char) : List Char := cs.dropWhile isWsChar

/-- JavaScript String.prototype.trim on a character list. -/
def jsTrimList (cs : List Char) : List Char :=
  ((cs.dropWhile isWsChar).reverse.dropWhile isWsChar).reverse

/-- JavaScript String.prototype.trim. -/
def jsTrim (s : String) : String := String.mk (jsTrimList s.data)

/-- Case-insensitive character comparison via Char.toLower. -/
def icEq (a b : Char) : Bool := a.toLower = b.toLower

/-- Case-insensitively match a literal at the head of the input, returning
the remainder on success. -/
def icStripLit : List Char → List Char → Option (List Char)
  | [], cs => some cs
  | _ :: _, [] => none
  | l :: ls, c :: cs => if icEq l c then icStripLit ls cs else none

/-- Case-sensitively match a literal at the head of the input, returning
the remainder on success. -/
def stripLit : List Char → List Char → Option (List Char)
  | [], cs => some cs
  | _ :: _, [] => none
  | l :: ls, c :: cs => if l = c then stripLit ls cs else none

/-! ## JSON value model and a model of the JSON.parse built-in

The sources call the JavaScript built-in JSON.parse inside a try/catch.
The built-in is modelled by a total recursive-descent reader returning
Option Json; numbers are kept exactly as mantissa times a power of ten. -/

/-- JSON values.  A number is mantissa * 10 ^ exponent, kept exact. -/
inductive Json where
  | null : Json
  | bool (b : Bool) : Json
  | num (mantissa : Int) (exponent : Int) : Json
  | str (s : String) : Json
  | arr (elems : List Json) : Json
  | obj (fields : List (String × Json)) : Json

/-- JavaScript truthiness of a parsed JSON value (used by the sources'
falsy checks on fields of the parsed output). -/
def Json.truthy : Json → Bool
  | .null => false
  | .bool b => b
  | .num m _ => m ≠ 0
  | .str s => s ≠ ""
  | .arr _ => true
  | .obj _ => true

/-- Object field lookup; JSON.parse keeps the last duplicate key, so the
reversed field list is searched first-match. -/
def Json.getField (j : Json) (key : String) : Option Json :=
  match j with
  | .obj fields => (fields.reverse.find? (fun kv => kv.1 = key)).map (·.2)
  | _ => none

/-- Hex digit value, if any. -/
def hexVal (c : Char) : Option Nat :=
  if '0' ≤ c ∧ c ≤ '9' then some (c.toNat - '0'.toNat)
  else if 'a' ≤ c ∧ c ≤ 'f' then some (c.toNat - 'a'.toNat + 10)
  else if 'A' ≤ c ∧ c ≤ 'F' then some (c.toNat - 'A'.toNat + 10)
  else none

/-- Decimal digit value, if any. -/
def digitVal (c : Char) : Option Nat :=
  if '0' ≤ c ∧ c ≤ '9' then some (c.toNat - '0'.toNat) else none

/-- Read a run of decimal digits, returning accumulated value, count read,
and the remainder. -/
def readDigits : List Char → Nat → Nat → Nat × Nat × List Char
  | [], acc, n => (acc, n, [])
  | c :: cs, acc, n =>
    match digitVal c with
    | some d => readDigits cs (acc * 10 + d) (n + 1)
    | none => (acc, n, c :: cs)

/-- Read the body of a JSON string after the opening quote (fuel-driven). -/
def readStringBody : Nat → List Char → List Char → Option (String × List Char)
  | 0, _, _ => none
  | _ + 1, _, [] => none
  | fuel + 1, acc, c :: cs =>
    if c = '"' then some (String.mk acc.reverse, cs)
    else if c = '\\' then
      match cs with
      | [] => none
      | e :: cs' =>
        if e = '"' then readStringBody fuel ('"' :: acc) cs'
        else if e = '\\' then readStringBody fuel ('\\' :: acc) cs'
        else if e = '/' then readStringBody fuel ('/' :: acc) cs'
        else if e = 'b' then readStringBody fuel ('\x08' :: acc) cs'
        else if e = 'f' then readStringBody fuel ('\x0c' :: acc) cs'
        else if e = 'n' then readStringBody fuel ('\n' :: acc) cs'
        else if e = 'r' then readStringBody fuel ('\r' :: acc) cs'
        else if e = 't' then readStringBody fuel ('\t' :: acc) cs'
        else if e = 'u' then
          match cs' with
          | h1 :: h2 :: h3 :: h4 :: cs'' =>
            match hexVal h1, hexVal h2, hexVal h3, hexVal h4 with
            | some a, some b, some c2, some d =>
              readStringBody fuel
                (Char.ofNat (((a * 16 + b) * 16 + c2) * 16 + d) :: acc) cs''
            | _, _, _, _ => none
          | _ => none
        else none
    else readStringBody fuel (c :: acc) cs

/-- Read a JSON number (sign, integer part, optional fraction, optional
exponent), returning the exact decimal value and the remainder. -/
def readNumber (cs : List Char) : Option (Int × Int × List Char) :=
  let (neg, cs₁) :=
    match cs with
    | '-' :: rest => (true, rest)
    | _ => (false, cs)
  let (ip, ipN, cs₂) := readDigits cs₁ 0 0
  if ipN = 0 then none
  else
    let (frac, fracN, cs₃) :=
      match cs₂ with
      | '.' :: rest =>
        let (f, fn, r) := readDigits rest 0 0
        (f, fn, r)
      | _ => (0, 0, cs₂)
    let hadDot : Bool := match cs₂ with | '.' :: _ => true | _ => false
    if hadDot ∧ fracN = 0 then none
    else
      let mant : Int := (ip * 10 ^ fracN + frac : Nat)
      let mant : Int := if neg then -mant else mant
      match cs₃ with
      | e :: rest =>
        if e = 'e' ∨ e = 'E' then
          let (eneg, rest₁) :=
            match rest with
            | '-' :: r => (true, r)
            | '+' :: r => (false, r)
            | _ => (false, rest)
          let (ev, evN, rest₂) := readDigits rest₁ 0 0
          if evN = 0 then none
          else
            let ex : Int := if eneg then -(ev : Int) else (ev : Int)
            some (mant, ex - fracN, rest₂)
        else some (mant, -(fracN : Int), cs₃)
      | [] => some (mant, -(fracN : Int), [])

mutual

/-- Read one JSON value (fuel-driven recursive descent). -/
def readValue : Nat → List Char → Option (Json × List Char)
  | 0, _ => none
  | fuel + 1, cs =>
    match dropLeadingWs cs with
    | [] => none
    | c :: rest =>
      if c = '{' then readObjFields fuel [] (dropLeadingWs rest) true
      else if c = '[' then readArrElems fuel [] (dropLeadingWs rest) true
      else if c = '"' then
        match readStringBody (fuel + 1) [] rest with
        | some (s, r) => some (.str s, r)
        | none => none
      else if c = 't' then
        match stripLit "rue".data rest with
        | some r => some (.bool true, r)
        | none => none
      else if c = 'f' then
        match stripLit "alse".data rest with
        | some r => some (.bool false, r)
        | none => none
      else if c = 'n' then
        match stripLit "ull".data rest with
        | some r => some (.null, r)
        | none => none
      else
        match readNumber (c :: rest) with
        | some (m, e, r) => some (.num m e, r)
        | none => none

/-- Read object fields after the opening brace.  first is true before any
field has been read. -/
def readObjFields : Nat → List (String × Json) → List Char → Bool →
    Option (Json × List Char)
  | 0, _, _, _ => none
  | fuel + 1, acc, cs, first =>
    match dropLeadingWs cs with
    | [] => none
    | c :: rest =>
      if c = '}' then some (.obj acc.reverse, rest)
      else
        let body :=
          if first then c :: rest
          else if c = ',' then rest
          else []
        match dropLeadingWs body with
        | '"' :: strRest =>
          (match readStringBody (fuel + 1) [] strRest with
           | some (key, afterKey) =>
             (match dropLeadingWs afterKey with
              | ':' :: afterColon =>
                (match readValue fuel afterColon with
                 | some (v, afterVal) =>
                   readObjFields fuel ((key, v) :: acc) afterVal false
                 | none => none)
              | _ => none)
           | none => none)
        | _ => none

/-- Read array elements after the opening bracket. -/
def readArrElems : Nat → List Json → List Char → Bool →
    Option (Json × List Char)
  | 0, _, _, _ => none
  | fuel + 1, acc, cs, first =>
    match dropLeadingWs cs with
    | [] => none
    | c :: rest =>
      if c = ']' ∧ first then some (.arr acc.reverse, rest)
      else
        let body :=
          if first then c :: rest
          else if c = ',' then rest
          else []
        match readValue fuel (dropLeadingWs body) with
        | some (v, afterVal) =>
          (match dropLeadingWs afterVal with
           | ']' :: r => some (.arr (v :: acc).reverse, r)
           | r => readArrElems fuel (v :: acc) r false)
        | none => none

end

/-- Model of the JavaScript built-in JSON.parse: parse one value and
require only whitespace after it; any failure is reported as none (the
sources catch the corresponding exception). -/
def jsonParse (s : String) : Option Json :=
  match readValue (s.data.length + 1) s.data with
  | some (j, rest) => if dropLeadingWs rest = [] then some j else none
  | none => none

/-! ## Stripping fenced json code blocks

Model of the global regex replacement removing every lazy span from a
triple-backtick-json opener to the nearest triple-backtick closer
(refinement-service isClarificationMessage / extractClarificationMessage). -/

/-- Find the nearest triple-backtick at or after the head and return the
remainder after it (the lazy closing of the regex). -/
def dropThroughTicks : List Char → Option (List Char)
  | [] => none
  | c :: cs =>
    if "```".data.isPrefixOf (c :: cs) then some ((c :: cs).drop 3)
    else dropThroughTicks cs

/-- One fuel-driven pass of the global replacement: at each position, if a
json fence opens here and closes somewhere later, remove through the
closer and continue after it; otherwise keep the character. -/
def stripJsonBlocksGo : Nat → List Char → List Char
  | 0, cs => cs
  | fuel + 1, cs =>
    if "```json".data.isPrefixOf cs then
      match dropThroughTicks (cs.drop 7) with
      | some rest => stripJsonBlocksGo fuel rest
      | none =>
        match cs with
        | [] => []
        | c :: cs' => c :: stripJsonBlocksGo fuel cs'
    else
      match cs with
      | [] => []
      | c :: cs' => c :: stripJsonBlocksGo fuel cs'

/-- Remove every json code block, as the source's global regex replace. -/
def stripJsonCodeBlocks (s : String) : String :=
  String.mk (stripJsonBlocksGo s.data.length s.data)

/-! ## Clarification pattern matching

The source tests ten JavaScript regexes (all case-insensitive) against the
stripped output.  The regexes use only literals, alternation, an optional
group and one-or-more whitespace, captured by this small pattern type. -/

/-- Pattern syntax sufficient for the clarification regexes. -/
inductive Pat where
  | lit (s : String)
  | ws1
  | opt (p : Pat)
  | alt2 (p q : Pat)
  | seq2 (p q : Pat)

/-- One-or-more whitespace: remainders after consuming 1..n leading
whitespace characters. -/
def wsPlusRems : List Char → List (List Char)
  | [] => []
  | c :: cs => if isWsChar c then cs :: wsPlusRems cs else []

/-- All remainders after matching the pattern at the head of the input. -/
def Pat.matchRems : Pat → List Char → List (List Char)
  | .lit l, cs =>
    (match icStripLit l.data cs with
     | some r => [r]
     | none => [])
  | .ws1, cs => wsPlusRems cs
  | .opt p, cs => cs :: p.matchRems cs
  | .alt2 p q, cs => p.matchRems cs ++ q.matchRems cs
  | .seq2 p q, cs =>
    (p.matchRems cs).foldr (fun r acc => q.matchRems r ++ acc) []

/-- Regex test: the pattern matches at some position of the input. -/
def Pat.test (p : Pat) : List Char → Bool
  | [] => !(p.matchRems []).isEmpty
  | c :: cs =>
    if (p.matchRems (c :: cs)).isEmpty then p.test cs else true

/-- The ten clarification-intent regexes of isClarificationMessage, in
source order. -/
def clarificationPatterns : List Pat :=
  [ .lit "I need to understand",
    .seq2 (.lit "could you ")
      (.seq2 (.opt (.seq2 (.lit "please") .ws1))
        (.alt2 (.lit "clarify") (.alt2 (.lit "specify") (.lit "tell me more")))),
    .lit "ambiguous",
    .lit "unclear",
    .lit "could mean",
    .seq2 (.lit "which ")
      (.alt2 (.lit "one")
        (.alt2 (.lit "approach") (.alt2 (.lit "option") (.lit "method")))),
    .lit "would you like me to",
    .seq2 (.lit "please ") (.alt2 (.lit "clarify") (.lit "specify")),
    .seq2 (.lit "not sure ")
      (.alt2 (.lit "what") (.alt2 (.lit "which") (.lit "how"))),
    .seq2 (.lit "can you provide more ")
      (.alt2 (.lit "details") (.lit "information")) ]

/-- The clarification classifier: strip json code blocks first, then test
the clarification patterns against the remaining text
(refinement-service isClarificationMessage). -/
def isClarificationMessage (output : String) : Bool :=
  let textWithoutCodeBlocks := (stripJsonCodeBlocks output).data
  clarificationPatterns.any (fun p => p.test textWithoutCodeBlocks)

/-! ## Extracting the clarification prose -/

/-- After an opening brace, the rest of the string ends with a closing
brace followed only by whitespace. -/
def endsWithBraceModWs (cs : List Char) : Bool :=
  match cs.reverse.dropWhile isWsChar with
  | '}' :: _ => true
  | _ => false

/-- Model of the second replacement of extractClarificationMessage: remove
from the first newline that is followed (after whitespace) by a brace-to-
final-brace block extending to the end of the string. -/
def stripTrailingJsonGo : List Char → List Char
  | [] => []
  | c :: cs =>
    let isMatchStart : Bool :=
      c = '\n' &&
        (match dropLeadingWs cs with
         | '{' :: t => endsWithBraceModWs t
         | _ => false)
    if isMatchStart then [] else c :: stripTrailingJsonGo cs

/-- Extract the clarification prose: remove json code blocks, remove a
trailing raw JSON block, and trim
(refinement-service extractClarificationMessage). -/
def extractClarificationMessage (output : String) : String :=
  String.mk (jsTrimList (stripTrailingJsonGo (stripJsonCodeBlocks output).data))

/-! ## Output parsing (claude-code-service parseClaudeCodeOutput) -/

/-- Parse JSON output from the CLI: if the trimmed output is wrapped in a
json fence, remove the outer markers only and parse the inside; otherwise
parse as-is; any parse failure yields none (the source returns null). -/
def parseClaudeCodeOutput (output : String) : Option Json :=
  let trimmed := jsTrimList output.data
  if "```json".data.isPrefixOf trimmed ∧ "```".data.isSuffixOf trimmed then
    let inner := trimmed.drop 7
    jsonParse (String.mk (jsTrimList (inner.take (inner.length - 3))))
  else
    jsonParse (String.mk trimmed)

/-! ## Conversation data model (shared/types/workflow-definition) -/

/-- Message sender. -/
inductive Sender where
  | user : Sender
  | ai : Sender
deriving DecidableEq

/-- One conversation message. -/
structure ConversationMessage where
  id : String
  sender : Sender
  content : String
  timestamp : String
  translationKey : Option String := none
deriving DecidableEq

/-- Conversation history with iteration budget. -/
structure ConversationHistory where
  schemaVersion : String
  messages : List ConversationMessage
  currentIteration : Nat
  maxIterations : Nat
  createdAt : String
  updatedAt : String
deriving DecidableEq

/-! ## Refinement store operations (webview refinement-store) -/

/-- initConversation: fresh history with iteration 0 and limit 20. -/
def initConversation (now : String) : ConversationHistory :=
  { schemaVersion := "1.0.0", messages := [], currentIteration := 0,
    maxIterations := 20, createdAt := now, updatedAt := now }

/-- clearHistory: empty the messages and reset the iteration counter,
keeping the conversation identity. -/
def clearHistory (h : ConversationHistory) (now : String) : ConversationHistory :=
  { h with messages := [], currentIteration := 0, updatedAt := now }

/-! ## Workflow model (the fields the refinement pipeline reads) -/

/-- Node payload; for skill nodes the resolution fields are meaningful. -/
structure SkillNodeData where
  name : String
  scope : String
  skillPath : Option String := none
  validationStatus : Option String := none
deriving DecidableEq

/-- A workflow node. -/
structure WorkflowNode where
  id : String
  type : String
  data : SkillNodeData
deriving DecidableEq

/-- A workflow connection. -/
structure Connection where
  id : String
  from_ : String
  to_ : String
  fromPort : String
  toPort : String
deriving DecidableEq

/-- A workflow document. -/
structure Workflow where
  id : String
  nodes : List WorkflowNode
  connections : List Connection
  conversationHistory : Option ConversationHistory := none
deriving DecidableEq

/-- A reusable-step catalog entry (shared/types/messages SkillReference). -/
structure SkillReference where
  name : String
  scope : String
  skillPath : String
  validationStatus : String
deriving DecidableEq

/-! ## Decoding a parsed JSON value into the workflow model

The source casts the parsed value to the Workflow type without conversion;
the model reads out the fields the downstream pipeline uses. -/

/-- Read a string field, defaulting to the empty string. -/
def jsonStr : Option Json → String
  | some (.str s) => s
  | _ => ""

/-- Read an optional string field. -/
def jsonStrOpt : Option Json → Option String
  | some (.str s) => some s
  | _ => none

/-- Truthiness of a field of a parsed object (absent fields are falsy,
matching the undefined case in the source's checks). -/
def jsFieldTruthy (j : Json) (key : String) : Bool :=
  match j.getField key with
  | some v => v.truthy
  | none => false

/-- Decode one node. -/
def decodeNode (j : Json) : WorkflowNode :=
  { id := jsonStr (j.getField "id"),
    type := jsonStr (j.getField "type"),
    data :=
      match j.getField "data" with
      | some d =>
        { name := jsonStr (d.getField "name"),
          scope := jsonStr (d.getField "scope"),
          skillPath := jsonStrOpt (d.getField "skillPath"),
          validationStatus := jsonStrOpt (d.getField "validationStatus") }
      | none => { name := "", scope := "" } }

/-- Decode one connection. -/
def decodeConnection (j : Json) : Connection :=
  { id := jsonStr (j.getField "id"),
    from_ := jsonStr (j.getField "from"),
    to_ := jsonStr (j.getField "to"),
    fromPort := jsonStr (j.getField "fromPort"),
    toPort := jsonStr (j.getField "toPort") }

/-- Decode a workflow document from parsed JSON. -/
def decodeWorkflow (j : Json) : Workflow :=
  { id := jsonStr (j.getField "id"),
    nodes :=
      match j.getField "nodes" with
      | some (.arr xs) => xs.map decodeNode
      | _ => [],
    connections :=
      match j.getField "connections" with
      | some (.arr xs) => xs.map decodeConnection
      | _ => [] }

/-! ## Skill path resolution (refinement-service resolveSkillPaths) -/

/-- Resolution of a single node: non-skill nodes are unchanged; a skill
node is matched against the catalog by name and scope; a match resolves
path and validation status, a miss marks the node missing. -/
def resolveSkillNode (availableSkills : List SkillReference)
    (node : WorkflowNode) : WorkflowNode :=
  if node.type ≠ "skill" then node
  else
    match availableSkills.find?
        (fun skill => skill.name == node.data.name && skill.scope == node.data.scope) with
    | some matchedSkill =>
      { node with data :=
        { node.data with
          skillPath := some matchedSkill.skillPath,
          validationStatus := some matchedSkill.validationStatus } }
    | none =>
      { node with data := { node.data with validationStatus := some "missing" } }

/-- Resolve skill paths over all nodes of a workflow. -/
def resolveSkillPaths (workflow : Workflow)
    (availableSkills : List SkillReference) : Workflow :=
  { workflow with nodes := workflow.nodes.map (resolveSkillNode availableSkills) }

/-! ## Error taxonomy and execution results -/

/-- Error codes of the refinement pipeline. -/
inductive ErrorCode where
  | COMMAND_NOT_FOUND : ErrorCode
  | TIMEOUT : ErrorCode
  | PARSE_ERROR : ErrorCode
  | VALIDATION_ERROR : ErrorCode
  | UNKNOWN_ERROR : ErrorCode
  | ITERATION_LIMIT_REACHED : ErrorCode
deriving DecidableEq

/-- An error with its code (message text abridged to its fixed part). -/
structure ErrorInfo where
  code : ErrorCode
  message : String
  details : Option String := none
deriving DecidableEq

/-- Result of one CLI execution (claude-code-service). -/
structure ClaudeCodeExecutionResult where
  success : Bool
  output : Option String := none
  error : Option ErrorInfo := none
  executionTimeMs : Nat
deriving DecidableEq

/-! ## Process supervisor (claude-code-service) -/

/-- One registered process. -/
structure ProcessEntry where
  pid : Nat
  startTime : Nat
deriving DecidableEq

/-- The activeProcesses map, keyed by request id. -/
abbrev ProcessTable := List (String × ProcessEntry)

/-- Map lookup. -/
def tableGet (table : ProcessTable) (requestId : String) : Option ProcessEntry :=
  (table.find? (fun e => e.1 == requestId)).map (·.2)

/-- Map deletion. -/
def tableDelete (table : ProcessTable) (requestId : String) : ProcessTable :=
  table.filter (fun e => e.1 != requestId)

/-- What the awaited subprocess did: completed normally with stdout, or
rejected with the fields nano-spawn puts on its error. -/
inductive SubprocessOutcome where
  | completed (stdout : String) : SubprocessOutcome
  | errored (exitCode : Option Int) (stderr : String) (isTerminated : Bool)
      (signalName : Option String) (errCode : Option String)
      (isSubprocessErr : Bool) : SubprocessOutcome
deriving DecidableEq

/-- Default timeout of executeClaudeCodeCLI (its default parameter). -/
def claudeCliDefaultTimeoutMs : Nat := 60000

/-- Error classification of the catch branch of executeClaudeCodeCLI:
timeout is SIGTERM termination or exit code 143; ENOENT is command not
found; anything else is unknown. -/
def classifyCliError (exitCode : Option Int) (isTerminated : Bool)
    (signalName : Option String) (errCode : Option String)
    (isSubprocessErr : Bool) : ErrorInfo :=
  if isSubprocessErr then
    let isTimeout :=
      (isTerminated && signalName == some "SIGTERM") || exitCode == some 143
    if isTimeout then
      { code := .TIMEOUT, message := "AI generation timed out" }
    else if errCode == some "ENOENT" then
      { code := .COMMAND_NOT_FOUND,
        message := "Cannot connect to Claude Code - please ensure it is installed and running" }
    else
      { code := .UNKNOWN_ERROR,
        message := "Generation failed - please try again or rephrase your description" }
  else
    { code := .UNKNOWN_ERROR, message := "An unexpected error occurred. Please try again." }

/-- Model of executeClaudeCodeCLI: register the process under the request
id (when given), await the outcome, and remove the registration on every
exit path; on success return trimmed stdout. -/
def executeClaudeCodeCLI (table : ProcessTable) (requestId : Option String)
    (pid startTime now : Nat) (outcome : SubprocessOutcome)
    (timeoutMs : Nat := claudeCliDefaultTimeoutMs) :
    ClaudeCodeExecutionResult × ProcessTable :=
  let _ := timeoutMs
  let registered :=
    match requestId with
    | some rid => (rid, ProcessEntry.mk pid startTime) :: table
    | none => table
  let removed :=
    match requestId with
    | some rid => tableDelete registered rid
    | none => registered
  match outcome with
  | .completed stdout =>
    ({ success := true, output := some (jsTrim stdout),
       executionTimeMs := now - startTime }, removed)
  | .errored exitCode _stderr isTerminated signalName errCode isSub =>
    ({ success := false,
       error := some (classifyCliError exitCode isTerminated signalName errCode isSub),
       executionTimeMs := now - startTime }, removed)

/-- Result of a cancellation request. -/
structure CancelResult where
  cancelled : Bool
  executionTimeMs : Option Nat := none
deriving DecidableEq

/-- Model of cancelRefinement: look the request up in the process table;
if absent, report not-cancelled and change nothing; if present, kill the
process (returned as the list of killed pids), remove the entry and report
cancelled with the elapsed time. -/
def cancelRefinement (table : ProcessTable) (requestId : String) (now : Nat) :
    CancelResult × ProcessTable × List Nat :=
  match tableGet table requestId with
  | none => ({ cancelled := false }, table, [])
  | some entry =>
    ({ cancelled := true, executionTimeMs := some (now - entry.startTime) },
     tableDelete table requestId, [entry.pid])

/-! ## Refinement coordinator (refinement-service refineWorkflow) -/

/-- One structural validation issue. -/
structure ValidationIssue where
  message : String
deriving DecidableEq

/-- Result of validateAIGeneratedWorkflow. -/
structure ValidationResult where
  valid : Bool
  errors : List ValidationIssue := []
deriving DecidableEq

/-- Result of one refinement run. -/
structure RefinementResult where
  success : Bool
  refinedWorkflow : Option Workflow := none
  clarificationMessage : Option String := none
  error : Option ErrorInfo := none
  executionTimeMs : Nat
deriving DecidableEq

/-- Default timeout of refineWorkflow (MAX_REFINEMENT_TIMEOUT_MS). -/
def MAX_REFINEMENT_TIMEOUT_MS : Nat := 90000

/-- Environment of one refineWorkflow call: what schema loading, skill
scanning, the CLI execution and the structural validator would return.
The validator is a parameter because validate-workflow is an external
collaborator of this pipeline. -/
structure RefinementEnv where
  schemaLoadOk : Bool
  personalSkills : List SkillReference := []
  projectSkills : List SkillReference := []
  cliResult : ClaudeCodeExecutionResult
  validate : Workflow → ValidationResult

/-- Observable side activity of one refinement run: the timeouts of the
CLI invocations made, and whether output parsing was attempted. -/
structure RefineTrace where
  cliTimeoutsMs : List Nat := []
  parseAttempted : Bool := false
deriving DecidableEq

/-- Model of refineWorkflow: load schema (and skills when enabled), run
the CLI once, classify the output (clarification before any parse), parse
and field-check the output, resolve skill paths, validate, and return
exactly one result; every failure is a returned error, never an
exception. -/
def refineWorkflowRun (currentWorkflow : Workflow)
    (conversationHistory : ConversationHistory) (userMessage : String)
    (useSkills : Bool) (env : RefinementEnv)
    (timeoutMs : Nat := MAX_REFINEMENT_TIMEOUT_MS) :
    RefinementResult × RefineTrace :=
  let _ := (currentWorkflow, conversationHistory, userMessage)
  let availableSkills :=
    if useSkills then env.personalSkills ++ env.projectSkills else []
  if !env.schemaLoadOk then
    ({ success := false,
       error := some { code := .UNKNOWN_ERROR, message := "Failed to load workflow schema" },
       executionTimeMs := 0 }, {})
  else
    let cliResult := env.cliResult
    let trace : RefineTrace := { cliTimeoutsMs := [timeoutMs] }
    let outputFalsy : Bool :=
      match cliResult.output with
      | none => true
      | some s => s == ""
    if !cliResult.success || outputFalsy then
      ({ success := false,
         error := some (cliResult.error.getD
           { code := .UNKNOWN_ERROR, message := "Unknown error occurred during CLI execution" }),
         executionTimeMs := cliResult.executionTimeMs }, trace)
    else
      let output := cliResult.output.getD ""
      if isClarificationMessage output then
        ({ success := true,
           clarificationMessage := some (extractClarificationMessage output),
           executionTimeMs := cliResult.executionTimeMs }, trace)
      else
        let trace := { trace with parseAttempted := true }
        match parseClaudeCodeOutput output with
        | none =>
          ({ success := false,
             error := some { code := .PARSE_ERROR,
                             message := "Failed to parse AI response. Please try again or rephrase your request" },
             executionTimeMs := cliResult.executionTimeMs }, trace)
        | some parsedOutput =>
          if !(jsFieldTruthy parsedOutput "id") || !(jsFieldTruthy parsedOutput "nodes")
              || !(jsFieldTruthy parsedOutput "connections") then
            ({ success := false,
               error := some { code := .PARSE_ERROR,
                               message := "Refinement failed - AI output does not match Workflow format" },
               executionTimeMs := cliResult.executionTimeMs }, trace)
          else
            let refinedWorkflow := decodeWorkflow parsedOutput
            let refinedWorkflow :=
              if useSkills then resolveSkillPaths refinedWorkflow availableSkills
              else refinedWorkflow
            let validation := env.validate refinedWorkflow
            if !validation.valid then
              ({ success := false,
                 error := some { code := .VALIDATION_ERROR,
                                 message := "Refined workflow failed validation - please try again" },
                 executionTimeMs := cliResult.executionTimeMs }, trace)
            else
              ({ success := true, refinedWorkflow := some refinedWorkflow,
                 executionTimeMs := cliResult.executionTimeMs }, trace)

/-- The CLI output seen by the coordinator. -/
def cliOutputOf (env : RefinementEnv) : String := env.cliResult.output.getD ""

/-- The guard on the CLI result: execution succeeded with truthy output. -/
def refinementCliOk (env : RefinementEnv) : Bool :=
  env.cliResult.success &&
    (match env.cliResult.output with
     | some s => s != ""
     | none => false)

/-- The run reaches the structural-validation step: schema and CLI ok, the
output is not a clarification, it parses, and the parsed object has truthy
id, nodes and connections fields. -/
def reachesValidation (env : RefinementEnv) : Bool :=
  env.schemaLoadOk && refinementCliOk env &&
    !(isClarificationMessage (cliOutputOf env)) &&
    (match parseClaudeCodeOutput (cliOutputOf env) with
     | some j =>
       jsFieldTruthy j "id" && jsFieldTruthy j "nodes" && jsFieldTruthy j "connections"
     | none => false)

/-- The workflow handed to the validator on the validation path. -/
def resolvedWorkflowOf (env : RefinementEnv) (useSkills : Bool) : Workflow :=
  match parseClaudeCodeOutput (cliOutputOf env) with
  | some j =>
    let wf := decodeWorkflow j
    if useSkills then resolveSkillPaths wf (env.personalSkills ++ env.projectSkills)
    else wf
  | none => { id := "", nodes := [], connections := [] }

/-! ## Command handlers (workflow-refinement handlers) -/

/-- Messages posted to the webview by the handlers. -/
inductive WebviewMessage where
  | refinementSuccess (requestId : String) (refinedWorkflow : Workflow)
      (aiMessage : ConversationMessage)
      (updatedHistory : ConversationHistory) : WebviewMessage
  | refinementClarification (requestId : String)
      (aiMessage : ConversationMessage)
      (updatedHistory : ConversationHistory) : WebviewMessage
  | refinementFailed (requestId : String) (error : ErrorInfo) : WebviewMessage
  | refinementCancelled (requestId : String) (executionTimeMs : Nat) : WebviewMessage
deriving DecidableEq

/-- The request id a posted message is for. -/
def WebviewMessage.requestIdOf : WebviewMessage → String
  | .refinementSuccess rid _ _ _ => rid
  | .refinementClarification rid _ _ => rid
  | .refinementFailed rid _ => rid
  | .refinementCancelled rid _ => rid

/-- The message carries a terminal refinement classification (success,
clarification or failure), as opposed to a cancellation notification. -/
def WebviewMessage.isRefinementOutcome : WebviewMessage → Bool
  | .refinementSuccess _ _ _ _ => true
  | .refinementClarification _ _ _ => true
  | .refinementFailed _ _ => true
  | .refinementCancelled _ _ => false

/-- All messages of a trace posted for a given request id. -/
def outcomesFor (requestId : String) (msgs : List WebviewMessage) :
    List WebviewMessage :=
  msgs.filter (fun m => m.requestIdOf == requestId)

/-- The REFINE_WORKFLOW payload. -/
structure RefineWorkflowPayload where
  workflowId : String
  userMessage : String
  currentWorkflow : Workflow
  conversationHistory : ConversationHistory
  useSkills : Bool := true
  timeoutMs : Option Nat := none

/-- Fresh identifiers and the current timestamp used by the handler. -/
structure IdGen where
  userMessageId : String
  aiMessageId : String
  now : String

/-- The settings default of aiRefinement.timeout, in seconds. -/
def defaultConfigTimeoutSeconds : Nat := 90

/-- Effective timeout of the handler: a truthy payload timeout wins,
otherwise the configured seconds (defaulting to 90) times 1000. -/
def handlerEffectiveTimeoutMs (payloadTimeoutMs : Option Nat)
    (configTimeoutSeconds : Option Nat) : Nat :=
  match payloadTimeoutMs with
  | some t =>
    if t ≠ 0 then t
    else (configTimeoutSeconds.getD defaultConfigTimeoutSeconds) * 1000
  | none => (configTimeoutSeconds.getD defaultConfigTimeoutSeconds) * 1000

/-- Model of handleRefineWorkflow: short-circuit on the iteration limit
without running the refinement; otherwise run it once and post exactly one
of clarification, failure or success, appending the user/agent exchange
and incrementing the iteration on the two successful paths. -/
def handleRefineWorkflow (payload : RefineWorkflowPayload) (requestId : String)
    (configTimeoutSeconds : Option Nat) (env : RefinementEnv) (gen : IdGen) :
    List WebviewMessage × RefineTrace :=
  let effectiveTimeoutMs :=
    handlerEffectiveTimeoutMs payload.timeoutMs configTimeoutSeconds
  let h := payload.conversationHistory
  if h.maxIterations ≤ h.currentIteration then
    ([.refinementFailed requestId
        { code := .ITERATION_LIMIT_REACHED,
          message :=
            "Maximum iteration limit reached. Please clear conversation history to continue." }],
     {})
  else
    let run := refineWorkflowRun payload.currentWorkflow h
      payload.userMessage payload.useSkills env effectiveTimeoutMs
    let result := run.1
    let trace := run.2
    let clarificationTruthy : Bool :=
      match result.clarificationMessage with
      | some s => s != ""
      | none => false
    if result.success && clarificationTruthy && result.refinedWorkflow.isNone then
      let aiMessage : ConversationMessage :=
        { id := gen.aiMessageId, sender := .ai,
          content := result.clarificationMessage.getD "", timestamp := gen.now }
      let userMessageObj : ConversationMessage :=
        { id := gen.userMessageId, sender := .user,
          content := payload.userMessage, timestamp := gen.now }
      let updatedHistory :=
        { h with messages := h.messages ++ [userMessageObj, aiMessage],
                 currentIteration := h.currentIteration + 1,
                 updatedAt := gen.now }
      ([.refinementClarification requestId aiMessage updatedHistory], trace)
    else if !result.success || result.refinedWorkflow.isNone then
      ([.refinementFailed requestId
          (result.error.getD
            { code := .UNKNOWN_ERROR,
              message := "Unknown error occurred during refinement" })], trace)
    else
      let aiMessage : ConversationMessage :=
        { id := gen.aiMessageId, sender := .ai,
          content := "Workflow has been updated.",
          translationKey := some "refinement.success.defaultMessage",
          timestamp := gen.now }
      let userMessageObj : ConversationMessage :=
        { id := gen.userMessageId, sender := .user,
          content := payload.userMessage, timestamp := gen.now }
      let updatedHistory :=
        { h with messages := h.messages ++ [userMessageObj, aiMessage],
                 currentIteration := h.currentIteration + 1,
                 updatedAt := gen.now }
      let wf := result.refinedWorkflow.getD { id := "", nodes := [], connections := [] }
      let wf := { wf with conversationHistory := some updatedHistory }
      ([.refinementSuccess requestId wf aiMessage updatedHistory], trace)

/-- Model of handleCancelRefinement: run cancelRefinement on the target
request id and post a cancellation message in both branches (the source
posts it even when no active process was found). -/
def handleCancelRefinement (table : ProcessTable) (targetRequestId : String)
    (now : Nat) : ProcessTable × List Nat × List WebviewMessage :=
  let run := cancelRefinement table targetRequestId now
  let result := run.1
  let table' := run.2.1
  let kills := run.2.2
  if result.cancelled then
    (table', kills, [.refinementCancelled targetRequestId (result.executionTimeMs.getD 0)])
  else
    (table', kills, [.refinementCancelled targetRequestId 0])

/-! ## Session controller view (RefinementChatPanel and the stores)

Modelled from the webview panel: the success path adopts the refined
workflow and the updated history; the failure path only marks the message
errored and clears the processing flag, leaving the workflow store
untouched; cancellation removes the placeholder and clears the flag. -/

/-- The webview session state the outcomes act on. -/
structure SessionState where
  activeWorkflow : Workflow
  history : ConversationHistory
  isProcessing : Bool
deriving DecidableEq

/-- Apply one posted outcome to the session state. -/
def applyOutcomeToSession (st : SessionState) (m : WebviewMessage) : SessionState :=
  match m with
  | .refinementSuccess _ wf _ h' =>
    { st with activeWorkflow := wf, history := h', isProcessing := false }
  | .refinementClarification _ _ h' =>
    { st with history := h', isProcessing := false }
  | .refinementFailed _ _ => { st with isProcessing := false }
  | .refinementCancelled _ _ => { st with isProcessing := false }

/-- The updated conversation history a posted message carries, if any
(success and clarification carry one; failure and cancellation do not). -/
def historyOfMessage : WebviewMessage → Option ConversationHistory
  | .refinementSuccess _ _ _ h => some h
  | .refinementClarification _ _ h => some h
  | .refinementFailed _ _ => none
  | .refinementCancelled _ _ => none

/-! ## Concrete fixtures for evaluation -/

/-- A minimal current workflow. -/
def sampleWorkflow : Workflow := { id := "wf-1", nodes := [], connections := [] }

/-- A history three iterations in, far from the limit of 20. -/
def sampleHistory : ConversationHistory :=
  { schemaVersion := "1.0.0", messages := [], currentIteration := 3,
    maxIterations := 20, createdAt := "t0", updatedAt := "t0" }

/-- A history exactly at its iteration limit. -/
def limitHistory : ConversationHistory :=
  { sampleHistory with currentIteration := 20 }

/-- Fresh ids and a timestamp for one handled request. -/
def sampleGen : IdGen :=
  { userMessageId := "u1", aiMessageId := "a1", now := "t1" }

/-- A well-formed workflow document as CLI output. -/
def workflowJsonOutput : String :=
  "\x7b\"id\":\"wf-1\",\"nodes\":[],\"connections\":[]\x7d"

/-- Clarification prose used by the spec's example. -/
def clarifyOutput : String := "Could you clarify which branch should run first?"

/-- Clarification prose that also carries an example JSON payload in a
fenced json code block. -/
def clarifyWithPayloadOutput : String :=
  "Could you clarify which branch should run first?\n```json\n\x7b\"id\":\"wf-1\"\x7d\n```"

/-- A pure workflow document whose only clarification-looking word sits
inside the fenced json block. -/
def jsonWithUnclearInside : String :=
  "```json\n\x7b\"description\":\"unclear\"\x7d\n```"

/-- A single json-fenced workflow document. -/
def singleWrappedOutput : String := "```json\n\x7b\"a\":1\x7d\n```"

/-- A doubly json-fenced document: only the outer fence may be stripped. -/
def doubleWrappedOutput : String :=
  "```json\n```json\n\x7b\"a\":1\x7d\n```\n```"

/-- An environment whose CLI run returns a valid workflow document and
whose validator accepts. -/
def envSuccess : RefinementEnv :=
  { schemaLoadOk := true,
    cliResult := { success := true, output := some workflowJsonOutput, executionTimeMs := 5 },
    validate := fun _ => { valid := true } }

/-- An environment whose CLI run returns the clarification example. -/
def envClarify : RefinementEnv :=
  { envSuccess with
    cliResult := { success := true, output := some clarifyOutput, executionTimeMs := 5 } }

/-- An environment whose CLI run returns unparseable text. -/
def envUnparseable : RefinementEnv :=
  { envSuccess with
    cliResult := { success := true, output := some "not json at all", executionTimeMs := 5 } }

/-- The successful environment with a validator that rejects everything,
citing a port-count rule. -/
def envRejectAll : RefinementEnv :=
  { envSuccess with
    validate := fun _ =>
      { valid := false, errors := [{ message := "Node wf-1: outputPorts mismatch" }] } }

/-- A refinement payload over the sample workflow and history. -/
def samplePayload : RefineWorkflowPayload :=
  { workflowId := "wf-1", userMessage := "add logging",
    currentWorkflow := sampleWorkflow, conversationHistory := sampleHistory }

/-- A one-entry skill catalog. -/
def skillCatalog : List SkillReference :=
  [{ name := "deploy", scope := "project", skillPath := "/skills/deploy",
     validationStatus := "valid" }]

/-- A skill node whose name and scope match the catalog. -/
def skillNodeMatched : WorkflowNode :=
  { id := "n1", type := "skill", data := { name := "deploy", scope := "project" } }

/-- A skill node with no catalog match. -/
def skillNodeMissing : WorkflowNode :=
  { id := "n2", type := "skill", data := { name := "lint", scope := "personal" } }

/-- A successful refinement immediately followed by a cancel of the same
request id arriving after the terminal state (the process-table entry is
already gone). -/
def refineThenLateCancelTrace : List WebviewMessage :=
  (handleRefineWorkflow samplePayload "req-1" none envSuccess sampleGen).1 ++
    (handleCancelRefinement [] "req-1" 0).2.2

end CcWfStudio

namespace CcWfStudio

/-! # Helper lemmas -/

/-- The CLI timeouts recorded by a refinement run: none when schema
loading fails, otherwise exactly the timeout the run was invoked with. -/
theorem refineWorkflowRun_trace_cliTimeouts (cw : Workflow)
    (h : ConversationHistory) (um : String) (us : Bool)
    (env : RefinementEnv) (tm : Nat) :
    (refineWorkflowRun cw h um us env tm).2.cliTimeoutsMs =
      if env.schemaLoadOk then [tm] else [] := by
  unfold refineWorkflowRun
  by_cases hs : env.schemaLoadOk
  · simp only [hs, Bool.not_true, if_true, if_false, Bool.false_eq_true]
    repeat' split
    all_goals rfl
  · simp only [Bool.not_eq_true] at hs
    rw [hs]
    rfl

/-- Every CLI timeout recorded by a refinement run equals the timeout the
run was invoked with. -/
theorem refineWorkflowRun_trace_timeouts (cw : Workflow)
    (h : ConversationHistory) (um : String) (us : Bool)
    (env : RefinementEnv) (tm : Nat) :
    ∀ t ∈ (refineWorkflowRun cw h um us env tm).2.cliTimeoutsMs, t = tm := by
  intro t ht
  rw [refineWorkflowRun_trace_cliTimeouts] at ht
  split at ht <;> simp_all

/-- The trace of a handled request: empty when the iteration limit short-
circuits, otherwise the trace of the refinement run at the effective
timeout. -/
theorem handleRefineWorkflow_trace (payload : RefineWorkflowPayload)
    (requestId : String) (cfg : Option Nat) (env : RefinementEnv) (gen : IdGen) :
    (handleRefineWorkflow payload requestId cfg env gen).2 =
      if payload.conversationHistory.maxIterations ≤
          payload.conversationHistory.currentIteration then
        { cliTimeoutsMs := [], parseAttempted := false }
      else
        (refineWorkflowRun payload.currentWorkflow payload.conversationHistory
          payload.userMessage payload.useSkills env
          (handlerEffectiveTimeoutMs payload.timeoutMs cfg)).2 := by
  simp only [handleRefineWorkflow]
  split
  · rfl
  · repeat' split
    all_goals rfl

/-- Cancelling a request id with no process-table entry changes nothing
and reports not-cancelled. -/
theorem cancelRefinement_of_tableGet_none (table : ProcessTable)
    (requestId : String) (now : Nat) (h : tableGet table requestId = none) :
    cancelRefinement table requestId now =
      ({ cancelled := false, executionTimeMs := none }, table, []) := by
  unfold cancelRefinement
  rw [h]

/-! # Claims -/

/-- C5: cancelRefinement is idempotent: when the request id has no entry
in the process table (already finished or already cancelled), the call is
a no-op: it reports not-cancelled without error, kills no process, and
leaves the table unchanged, so it cannot trigger a duplicate outcome. -/
theorem cancelRefinement_no_entry_noop (table : ProcessTable) (requestId : String)
    (now : Nat) (h : tableGet table requestId = none) :
    cancelRefinement table requestId now =
      ({ cancelled := false, executionTimeMs := none }, table, []) :=
  cancelRefinement_of_tableGet_none table requestId now h

/-- Witness for C5: cancelling on an empty process table. -/
theorem cancelRefinement_no_entry_noop_witness :
    cancelRefinement [] "req-gone" 7 =
      ({ cancelled := false, executionTimeMs := none }, [], []) :=
  cancelRefinement_no_entry_noop [] "req-gone" 7 rfl

/-- C3: when the history is at or over its iteration limit, the handler
fails synchronously with ITERATION_LIMIT_REACHED and the process
supervisor is never invoked (the trace records no CLI call). -/
theorem iteration_limit_short_circuits (payload : RefineWorkflowPayload)
    (requestId : String) (cfg : Option Nat) (env : RefinementEnv) (gen : IdGen)
    (hlim : payload.conversationHistory.maxIterations ≤
      payload.conversationHistory.currentIteration) :
    handleRefineWorkflow payload requestId cfg env gen =
      ([.refinementFailed requestId
          { code := .ITERATION_LIMIT_REACHED,
            message :=
              "Maximum iteration limit reached. Please clear conversation history to continue." }],
       { cliTimeoutsMs := [], parseAttempted := false }) := by
  unfold handleRefineWorkflow
  rw [if_pos hlim]

/-- Witness for C3: a submission at currentIteration = maxIterations = 20
fails synchronously without a supervisor call. -/
theorem iteration_limit_short_circuits_witness :
    handleRefineWorkflow { samplePayload with conversationHistory := limitHistory }
        "req-4" none envSuccess sampleGen =
      ([.refinementFailed "req-4"
          { code := .ITERATION_LIMIT_REACHED,
            message :=
              "Maximum iteration limit reached. Please clear conversation history to continue." }],
       { cliTimeoutsMs := [], parseAttempted := false }) :=
  iteration_limit_short_circuits _ "req-4" none envSuccess sampleGen (by decide)

/-- C1 counterexample: after a request has reached its terminal state (a
success was posted and the process-table entry is gone), a later cancel of
the same request id does cause a second message to be reported for that
request: the trace contains two messages for req-1, one terminal
refinement outcome and one cancellation notification. -/
theorem late_cancel_double_report :
    (outcomesFor "req-1" refineThenLateCancelTrace).length = 2 ∧
    ((outcomesFor "req-1" refineThenLateCancelTrace).filter
      (fun m => m.isRefinementOutcome)).length = 1 ∧
    ((outcomesFor "req-1" refineThenLateCancelTrace).filter
      (fun m => !m.isRefinementOutcome)).length = 1 := by
  refine ⟨?_, ?_, ?_⟩ <;> rfl

/-- C1 amended: a cancel arriving after the terminal state (no process
table entry) terminates no process, leaves the table unchanged, and posts
no additional success, clarification or failure outcome - but it does
post exactly one REFINEMENT_CANCELLED message for the request. -/
theorem late_cancel_amended (table : ProcessTable) (targetRequestId : String)
    (now : Nat) (h : tableGet table targetRequestId = none) :
    handleCancelRefinement table targetRequestId now =
      (table, [], [.refinementCancelled targetRequestId 0]) := by
  unfold handleCancelRefinement
  rw [cancelRefinement_of_tableGet_none table targetRequestId now h]
  rfl

/-- Witness for the amended C1: on an empty table a cancel of req-1 posts
one cancellation message and nothing else. -/
theorem late_cancel_amended_witness :
    handleCancelRefinement [] "req-1" 0 =
      ([], [], [.refinementCancelled "req-1" 0]) :=
  late_cancel_amended [] "req-1" 0 rfl

/-- C8 counterexample: the default timeouts are not one consistent value
across the entry points: the supervisor's own default (60000 ms) differs
from the refinement service's default and from the handler's effective
default (both 90000 ms). -/
theorem timeout_default_drift :
    ¬ (claudeCliDefaultTimeoutMs = MAX_REFINEMENT_TIMEOUT_MS ∧
       claudeCliDefaultTimeoutMs = handlerEffectiveTimeoutMs none none) := by
  decide

/-- C8 amended: the handler's effective default and the refinement
service's default agree at 90000 ms, and every supervisor invocation of a
handled request receives the handler's effective timeout unchanged (so a
retry entering through the same handler gets the same budget); the
supervisor's own default parameter, however, is a different value,
60000 ms. -/
theorem effective_timeout_threaded (payload : RefineWorkflowPayload)
    (requestId : String) (cfg : Option Nat) (env : RefinementEnv) (gen : IdGen) :
    handlerEffectiveTimeoutMs none none = MAX_REFINEMENT_TIMEOUT_MS ∧
    (∀ t ∈ (handleRefineWorkflow payload requestId cfg env gen).2.cliTimeoutsMs,
      t = handlerEffectiveTimeoutMs payload.timeoutMs cfg) ∧
    claudeCliDefaultTimeoutMs = 60000 ∧ MAX_REFINEMENT_TIMEOUT_MS = 90000 := by
  refine ⟨rfl, ?_, rfl, rfl⟩
  intro t ht
  rw [handleRefineWorkflow_trace] at ht
  split at ht
  · simp at ht
  · exact refineWorkflowRun_trace_timeouts _ _ _ _ env _ t ht

/-- C2: when the iteration invariant holds before a handled request, it
holds after: every history posted back satisfies currentIteration less
than or equal to maxIterations, and it extends the old history by exactly
one user message and one agent message while incrementing the iteration by
exactly one; clearHistory resets the counter to zero, which also satisfies
the invariant, as does a freshly initialised conversation. -/
theorem iteration_invariant_and_exchange (payload : RefineWorkflowPayload)
    (requestId : String) (cfg : Option Nat) (env : RefinementEnv) (gen : IdGen)
    (hinv : payload.conversationHistory.currentIteration ≤
      payload.conversationHistory.maxIterations) :
    (∀ m ∈ (handleRefineWorkflow payload requestId cfg env gen).1,
      ∀ h', historyOfMessage m = some h' →
        h'.currentIteration ≤ h'.maxIterations ∧
        h'.currentIteration = payload.conversationHistory.currentIteration + 1 ∧
        ∃ u a, h'.messages = payload.conversationHistory.messages ++ [u, a] ∧
          u.sender = .user ∧ a.sender = .ai ∧ u.content = payload.userMessage) ∧
    (∀ now, (clearHistory payload.conversationHistory now).currentIteration = 0 ∧
      (clearHistory payload.conversationHistory now).currentIteration ≤
        (clearHistory payload.conversationHistory now).maxIterations) ∧
    (∀ now, (initConversation now).currentIteration ≤
      (initConversation now).maxIterations) := by
  refine ⟨?_, fun now => ⟨rfl, Nat.zero_le _⟩, fun now => by simp [initConversation]⟩
  intro m hm h' hh
  simp only [handleRefineWorkflow] at hm
  split at hm
  · simp only [List.mem_singleton] at hm
    subst hm
    simp [historyOfMessage] at hh
  · rename_i hlim
    split at hm
    · simp only [List.mem_singleton] at hm
      subst hm
      simp only [historyOfMessage, Option.some.injEq] at hh
      subst hh
      refine ⟨by simp; omega, rfl, ?_⟩
      exact ⟨_, _, rfl, rfl, rfl, rfl⟩
    · split at hm
      · simp only [List.mem_singleton] at hm
        subst hm
        simp [historyOfMessage] at hh
      · simp only [List.mem_singleton] at hm
        subst hm
        simp only [historyOfMessage, Option.some.injEq] at hh
        subst hh
        refine ⟨by simp; omega, rfl, ?_⟩
        exact ⟨_, _, rfl, rfl, rfl, rfl⟩

/-- Witness for C2: a clarification exchange on the sample history (three
iterations in, limit 20) satisfies the posted-history properties. -/
theorem iteration_invariant_and_exchange_witness :
    sampleHistory.currentIteration ≤ sampleHistory.maxIterations ∧
    (∀ m ∈ (handleRefineWorkflow samplePayload "req-2" none envClarify sampleGen).1,
      ∀ h', historyOfMessage m = some h' →
        h'.currentIteration ≤ h'.maxIterations ∧
        h'.currentIteration = samplePayload.conversationHistory.currentIteration + 1 ∧
        ∃ u a, h'.messages = samplePayload.conversationHistory.messages ++ [u, a] ∧
          u.sender = .user ∧ a.sender = .ai ∧ u.content = samplePayload.userMessage) :=
  ⟨by decide,
   (iteration_invariant_and_exchange samplePayload "req-2" none envClarify sampleGen
     (by decide)).1⟩

/-- C9: resolving reusable-step references never drops a node: resolution
is a per-node map (same length, ids and connections unchanged); non-skill
nodes are untouched; a skill node whose name and scope match a catalog
entry gets that entry's path and validation status; a skill node with no
catalog match is kept with its validation status set to missing. -/
theorem skill_resolution_never_drops (workflow : Workflow)
    (skills : List SkillReference) :
    ((resolveSkillPaths workflow skills).nodes.length = workflow.nodes.length ∧
     (resolveSkillPaths workflow skills).nodes =
       workflow.nodes.map (resolveSkillNode skills) ∧
     (resolveSkillPaths workflow skills).id = workflow.id ∧
     (resolveSkillPaths workflow skills).connections = workflow.connections) ∧
    (∀ node : WorkflowNode, node.type ≠ "skill" →
      resolveSkillNode skills node = node) ∧
    (∀ node : WorkflowNode, ∀ sk,
      skills.find? (fun s => s.name == node.data.name && s.scope == node.data.scope) =
        some sk →
      node.type = "skill" →
      resolveSkillNode skills node =
        { node with data :=
          { node.data with skillPath := some sk.skillPath,
                           validationStatus := some sk.validationStatus } }) ∧
    (∀ node : WorkflowNode,
      skills.find? (fun s => s.name == node.data.name && s.scope == node.data.scope) =
        none →
      node.type = "skill" →
      resolveSkillNode skills node =
        { node with data := { node.data with validationStatus := some "missing" } }) := by
  refine ⟨⟨by simp [resolveSkillPaths], rfl, rfl, rfl⟩, ?_, ?_, ?_⟩
  · intro node hne
    unfold resolveSkillNode
    rw [if_pos hne]
  · intro node sk hf ht
    unfold resolveSkillNode
    rw [if_neg (by simp [ht]), hf]
  · intro node hf ht
    unfold resolveSkillNode
    rw [if_neg (by simp [ht]), hf]

/-- Witness for C9: one matched and one missing skill node against a
one-entry catalog. -/
theorem skill_resolution_never_drops_witness :
    resolveSkillNode skillCatalog skillNodeMatched =
      { skillNodeMatched with data :=
        { skillNodeMatched.data with skillPath := some "/skills/deploy",
                                     validationStatus := some "valid" } } ∧
    resolveSkillNode skillCatalog skillNodeMissing =
      { skillNodeMissing with data :=
        { skillNodeMissing.data with validationStatus := some "missing" } } :=
  ⟨(skill_resolution_never_drops sampleWorkflow skillCatalog).2.2.1 skillNodeMatched
     { name := "deploy", scope := "project", skillPath := "/skills/deploy",
       validationStatus := "valid" } (by decide) rfl,
   (skill_resolution_never_drops sampleWorkflow skillCatalog).2.2.2 skillNodeMissing
     (by decide) rfl⟩

/-- C10: parseClaudeCodeOutput is total: for every input it returns either
a parsed value or none, never an exception (in the embedding it is a total
function and every failure of the modelled JSON.parse becomes none); in
particular the empty string, plain prose, and an unterminated fenced block
all yield none. -/
theorem parseClaudeCodeOutput_total (s : String) :
    (parseClaudeCodeOutput s = none ∨ ∃ j, parseClaudeCodeOutput s = some j) ∧
    parseClaudeCodeOutput "" = none ∧
    parseClaudeCodeOutput "not json at all" = none ∧
    parseClaudeCodeOutput "```json \x7b\"a\":1" = none := by
  refine ⟨?_, rfl, rfl, rfl⟩
  cases hp : parseClaudeCodeOutput s
  · exact Or.inl rfl
  · exact Or.inr ⟨_, rfl⟩

/-- C4: a refinement whose structural validation fails ends in
Failed(ValidationError) with no refined workflow returned, and applying a
failed outcome to the session leaves the stored workflow document (and the
stored history) unchanged. -/
theorem validation_failure_not_committed (cw : Workflow) (h : ConversationHistory)
    (um : String) (us : Bool) (env : RefinementEnv) (tm : Nat)
    (hpath : reachesValidation env = true)
    (hval : (env.validate (resolvedWorkflowOf env us)).valid = false) :
    (refineWorkflowRun cw h um us env tm).1 =
      { success := false,
        error := some { code := .VALIDATION_ERROR,
                        message := "Refined workflow failed validation - please try again" },
        executionTimeMs := env.cliResult.executionTimeMs } ∧
    (refineWorkflowRun cw h um us env tm).1.refinedWorkflow = none ∧
    (∀ (st : SessionState) (e : ErrorInfo) (rid : String),
      (applyOutcomeToSession st (.refinementFailed rid e)).activeWorkflow =
        st.activeWorkflow ∧
      (applyOutcomeToSession st (.refinementFailed rid e)).history = st.history) := by
  simp only [reachesValidation, Bool.and_eq_true] at hpath
  obtain ⟨⟨⟨hschema, hcli⟩, hnclar⟩, hfields⟩ := hpath
  simp only [refinementCliOk, Bool.and_eq_true] at hcli
  obtain ⟨hsucc, hout⟩ := hcli
  rcases ho : env.cliResult.output with _ | s
  · rw [ho] at hout
    exact absurd hout (by simp)
  · rw [ho] at hout
    have hco : cliOutputOf env = s := by simp [cliOutputOf, ho]
    rw [hco] at hnclar hfields
    simp only [Bool.not_eq_true'] at hnclar
    rcases hp : parseClaudeCodeOutput s with _ | j
    · rw [hp] at hfields
      exact absurd hfields (by simp)
    · rw [hp] at hfields
      simp only [Bool.and_eq_true] at hfields
      obtain ⟨⟨hid, hnodes⟩, hconn⟩ := hfields
      have hvr : (env.validate (if us then
          resolveSkillPaths (decodeWorkflow j) (env.personalSkills ++ env.projectSkills)
          else decodeWorkflow j)).valid = false := by
        rw [← hval]
        have : resolvedWorkflowOf env us = (if us then
            resolveSkillPaths (decodeWorkflow j) (env.personalSkills ++ env.projectSkills)
            else decodeWorkflow j) := by
          simp [resolvedWorkflowOf, hco, hp]
        rw [this]
      have hvr2 : (env.validate (if us = true then
          resolveSkillPaths (decodeWorkflow j)
            (if us = true then env.personalSkills ++ env.projectSkills else [])
          else decodeWorkflow j)).valid = false := by
        cases us
        · simpa using hvr
        · simpa using hvr
      have hsne : (s == "") = false := by
        cases hq : s == "" with
        | false => rfl
        | true => simp_all
      refine ⟨?_, ?_, fun st e rid => ⟨rfl, rfl⟩⟩ <;>
        simp only [refineWorkflowRun, hschema, Bool.not_true, Bool.false_eq_true,
          if_false, ho, hsucc, hsne, Bool.or_self, hnclar, hp, hid, hnodes, hconn,
          Bool.not_false, Bool.or_false, Bool.false_or, Option.getD_some, hvr2,
          if_true, Bool.true_eq_false]

/-- Witness for C4: the successful environment with an always-rejecting
validator produces the validation failure, and the session keeps its
workflow on a failed outcome. -/
theorem validation_failure_not_committed_witness :
    (refineWorkflowRun sampleWorkflow sampleHistory "add logging" true envRejectAll 90000).1 =
      { success := false,
        error := some { code := .VALIDATION_ERROR,
                        message := "Refined workflow failed validation - please try again" },
        executionTimeMs := envRejectAll.cliResult.executionTimeMs } ∧
    (refineWorkflowRun sampleWorkflow sampleHistory "add logging" true
      envRejectAll 90000).1.refinedWorkflow = none ∧
    (∀ (st : SessionState) (e : ErrorInfo) (rid : String),
      (applyOutcomeToSession st (.refinementFailed rid e)).activeWorkflow =
        st.activeWorkflow ∧
      (applyOutcomeToSession st (.refinementFailed rid e)).history = st.history) :=
  validation_failure_not_committed sampleWorkflow sampleHistory "add logging" true
    envRejectAll 90000 (by decide) rfl

/-- C6: the classifier strips json code blocks first and only then pattern
matches, so when the CLI output is classified as a clarification the run
returns Clarification and never attempts a workflow parse; the spec's
example sentence is classified as a clarification, a clarification
carrying an embedded example payload still is, and a pure document whose
only clarification-looking word sits inside a json block is not. -/
theorem clarification_classified_before_parse (cw : Workflow)
    (h : ConversationHistory) (um : String) (us : Bool) (env : RefinementEnv)
    (tm : Nat) (hschema : env.schemaLoadOk = true)
    (hcli : refinementCliOk env = true)
    (hclar : isClarificationMessage (cliOutputOf env) = true) :
    ((refineWorkflowRun cw h um us env tm).2.parseAttempted = false ∧
     (refineWorkflowRun cw h um us env tm).1.success = true ∧
     (refineWorkflowRun cw h um us env tm).1.clarificationMessage =
       some (extractClarificationMessage (cliOutputOf env)) ∧
     (refineWorkflowRun cw h um us env tm).1.refinedWorkflow = none) ∧
    (∀ s : String, isClarificationMessage s =
      clarificationPatterns.any (fun p => p.test (stripJsonCodeBlocks s).data)) ∧
    isClarificationMessage clarifyOutput = true ∧
    isClarificationMessage clarifyWithPayloadOutput = true ∧
    isClarificationMessage jsonWithUnclearInside = false := by
  refine ⟨?_, fun s => rfl, rfl, rfl, rfl⟩
  simp only [refinementCliOk, Bool.and_eq_true] at hcli
  obtain ⟨hsucc, hout⟩ := hcli
  rcases ho : env.cliResult.output with _ | s
  · rw [ho] at hout
    exact absurd hout (by simp)
  · rw [ho] at hout
    have hco : cliOutputOf env = s := by simp [cliOutputOf, ho]
    rw [hco] at hclar ⊢
    have hsne : (s == "") = false := by
      cases hq : s == "" with
      | false => rfl
      | true => simp_all
    refine ⟨?_, ?_, ?_, ?_⟩ <;>
      simp only [refineWorkflowRun, hschema, Bool.not_true, Bool.false_eq_true,
        if_false, ho, hsucc, hsne, Bool.or_self, hclar, if_true,
        Option.getD_some, Bool.true_eq_false]

/-- Witness for C6: the clarification example environment. -/
theorem clarification_classified_before_parse_witness :
    (refineWorkflowRun sampleWorkflow sampleHistory "add logging" true
      envClarify 90000).2.parseAttempted = false ∧
    (refineWorkflowRun sampleWorkflow sampleHistory "add logging" true
      envClarify 90000).1.success = true ∧
    (refineWorkflowRun sampleWorkflow sampleHistory "add logging" true
      envClarify 90000).1.clarificationMessage =
        some (extractClarificationMessage (cliOutputOf envClarify)) ∧
    (refineWorkflowRun sampleWorkflow sampleHistory "add logging" true
      envClarify 90000).1.refinedWorkflow = none :=
  (clarification_classified_before_parse sampleWorkflow sampleHistory "add logging"
    true envClarify 90000 rfl (by decide) (by decide)).1

/-- C7: parsing strips at most one layer of an optional fenced wrapper (a
singly wrapped document parses, a doubly wrapped one does not), and when
parsing fails the handled request terminates with one ParseError failure
message after exactly one supervisor invocation - no automatic retry. -/
theorem parse_failure_terminal (payload : RefineWorkflowPayload)
    (requestId : String) (cfg : Option Nat) (env : RefinementEnv) (gen : IdGen)
    (hnl : payload.conversationHistory.currentIteration <
      payload.conversationHistory.maxIterations)
    (hschema : env.schemaLoadOk = true)
    (hcli : refinementCliOk env = true)
    (hnclar : isClarificationMessage (cliOutputOf env) = false)
    (hparse : parseClaudeCodeOutput (cliOutputOf env) = none) :
    ((handleRefineWorkflow payload requestId cfg env gen).1 =
      [.refinementFailed requestId
        { code := .PARSE_ERROR,
          message := "Failed to parse AI response. Please try again or rephrase your request" }] ∧
     (handleRefineWorkflow payload requestId cfg env gen).2.cliTimeoutsMs.length = 1 ∧
     (handleRefineWorkflow payload requestId cfg env gen).2.parseAttempted = true) ∧
    parseClaudeCodeOutput singleWrappedOutput = some (.obj [("a", .num 1 0)]) ∧
    parseClaudeCodeOutput doubleWrappedOutput = none := by
  refine ⟨?_, rfl, rfl⟩
  have hnlim : ¬ (payload.conversationHistory.maxIterations ≤
      payload.conversationHistory.currentIteration) := by omega
  simp only [refinementCliOk, Bool.and_eq_true] at hcli
  obtain ⟨hsucc, hout⟩ := hcli
  rcases ho : env.cliResult.output with _ | s
  · rw [ho] at hout
    exact absurd hout (by simp)
  · rw [ho] at hout
    have hco : cliOutputOf env = s := by simp [cliOutputOf, ho]
    rw [hco] at hnclar hparse
    have hsne : (s == "") = false := by
      cases hq : s == "" with
      | false => rfl
      | true => simp_all
    have hrun : refineWorkflowRun payload.currentWorkflow payload.conversationHistory
        payload.userMessage payload.useSkills env
        (handlerEffectiveTimeoutMs payload.timeoutMs cfg) =
      ({ success := false,
         error := some { code := .PARSE_ERROR,
                         message := "Failed to parse AI response. Please try again or rephrase your request" },
         executionTimeMs := env.cliResult.executionTimeMs },
       { cliTimeoutsMs := [handlerEffectiveTimeoutMs payload.timeoutMs cfg],
         parseAttempted := true }) := by
      simp only [refineWorkflowRun, hschema, Bool.not_true, Bool.false_eq_true,
        if_false, ho, hsucc, hsne, Bool.or_self, hnclar, hparse, if_true,
        Option.getD_some, Bool.true_eq_false]
    refine ⟨?_, ?_, ?_⟩ <;>
      · simp only [handleRefineWorkflow, hrun]
        rw [if_neg hnlim]
        rfl

/-- Witness for C7: the unparseable-output environment over the sample
payload. -/
theorem parse_failure_terminal_witness :
    (handleRefineWorkflow samplePayload "req-3" none envUnparseable sampleGen).1 =
      [.refinementFailed "req-3"
        { code := .PARSE_ERROR,
          message := "Failed to parse AI response. Please try again or rephrase your request" }] ∧
    (handleRefineWorkflow samplePayload "req-3" none envUnparseable
      sampleGen).2.cliTimeoutsMs.length = 1 ∧
    (handleRefineWorkflow samplePayload "req-3" none envUnparseable
      sampleGen).2.parseAttempted = true :=
  (parse_failure_terminal samplePayload "req-3" none envUnparseable sampleGen
    (by decide) rfl (by decide) (by decide) rfl).1

/-- Witness for the amended C8: the sample request records exactly the
handler's effective timeout of 90000 ms at the supervisor. -/
theorem effective_timeout_threaded_witness :
    90000 ∈ (handleRefineWorkflow samplePayload "req-8" none envSuccess
      sampleGen).2.cliTimeoutsMs ∧
    90000 = handlerEffectiveTimeoutMs samplePayload.timeoutMs none :=
  ⟨by decide,
   (effective_timeout_threaded samplePayload "req-8" none envSuccess sampleGen).2.1
     90000 (by decide)⟩

end CcWfStudio
